import Mathlib

/-
Verification of the ioBroker iOS app adapter (src/main.js, second snapshot,
lines 688-1408): connection registry, per-client message queue, notification
payload builder, state-change event trigger and WebSocket message handling.
All definitions are shallow embeddings of the JavaScript source; machine
integers do not occur (the adapter only compares small constants), JS values
are modelled by an explicit primitive-value type, and the dynamic property
assignment the code performs on socket objects is modelled by an explicit
property list.
-/

/-- Primitive JavaScript values as they occur in ioBroker states, message
fields, map keys and socket properties in this adapter. `undefined` is
modelled separately as `Option JVal = none` wherever the code can observe
it (absent states, absent object fields, unassigned properties). -/
inductive JVal where
  | null
  | bool (b : Bool)
  | num (n : Int)
  | str (s : String)
  deriving DecidableEq, Repr

/-- JavaScript truthiness of a defined primitive value
(`null`, `false`, `0`, and the empty string are falsy). -/
def JVal.truthy : JVal → Bool
  | .null => false
  | .bool b => b
  | .num n => n != 0
  | .str s => s != ""

/-- Strict equality `a === b` between two possibly-undefined JS values
(`undefined === undefined` is true, `undefined` equals no defined value,
and defined primitives compare by type and value). -/
def jsStrictEq (a b : Option JVal) : Bool :=
  match a, b with
  | none, none => true
  | some x, some y => x == y
  | _, _ => false

/-- authenticate (main.js 1399-1401): strict equality of the supplied
username and password against the configured credentials. -/
def authenticate (username password cfgUsername cfgPassword : Option JVal) : Bool :=
  jsStrictEq username cfgUsername && jsStrictEq password cfgPassword

/- ### Message queue (this.messageQueue, a Map from client id to an array) -/

/-- The message queue: a JS `Map` from client identifier to the ordered
array of messages queued for that client. Entries are listed in insertion
order; keys are unique in any map the adapter builds. -/
abbrev MQueue (α : Type) := List (JVal × List α)

/-- Map.has -/
def mqHas {α : Type} : MQueue α → JVal → Bool
  | [], _ => false
  | kv :: rest, c => kv.1 == c || mqHas rest c

/-- Map.get, `none` when the key is absent -/
def mqGetQ {α : Type} : MQueue α → JVal → Option (List α)
  | [], _ => none
  | kv :: rest, c => if kv.1 == c then some kv.2 else mqGetQ rest c

/-- Map.get with the absent case collapsed to the empty array (the code
only calls get after has, so the default is never observed). -/
def mqGet {α : Type} (q : MQueue α) (c : JVal) : List α :=
  (mqGetQ q c).getD []

/-- Map.set: overwrite the existing entry in place, else append a new one. -/
def mqSet {α : Type} : MQueue α → JVal → List α → MQueue α
  | [], c, l => [(c, l)]
  | kv :: rest, c, l => if kv.1 == c then (c, l) :: rest else kv :: mqSet rest c l

/-- Map.delete -/
def mqDelete {α : Type} (q : MQueue α) (c : JVal) : MQueue α :=
  q.filter (fun kv => !(kv.1 == c))

/-- queueMessageForClient (main.js 1192-1206): ensure an entry exists for
the client, then push the message onto the tail of its array. -/
def queueMessageForClient {α : Type} (q : MQueue α) (clientId : JVal) (message : α) :
    MQueue α :=
  let q1 := if mqHas q clientId then q else mqSet q clientId []
  let clientQueue := mqGet q1 clientId
  mqSet q1 clientId (clientQueue ++ [message])

/-- The while loop of sendQueuedMessages (main.js 1220-1229): shift the
head, send it if the socket is open at that iteration, otherwise unshift
it back and stop. `openAt k` is the readyState check of iteration `k`
(the state can flip mid-flush when the connection closes). Returns the
messages sent, in order, and the remaining array. -/
def drainLoop {α : Type} (openAt : Nat → Bool) : Nat → List α → List α × List α
  | _, [] => ([], [])
  | k, m :: rest =>
    if openAt k then
      let r := drainLoop openAt (k + 1) rest
      (m :: r.1, r.2)
    else
      ([], m :: rest)

/-- sendQueuedMessages (main.js 1209-1234): a falsy or absent
socket.clientId, or a client with no queue entry, is a no-op; otherwise
drain the entry with the while loop and delete the entry if it emptied.
Returns the messages sent, in order, and the queue afterwards. -/
def sendQueuedMessages {α : Type} (q : MQueue α) (clientId : Option JVal)
    (openAt : Nat → Bool) : List α × MQueue α :=
  match clientId with
  | none => ([], q)
  | some c =>
    if !c.truthy then ([], q)
    else if !(mqHas q c) then ([], q)
    else
      let r := drainLoop openAt 0 (mqGet q c)
      let q1 := mqSet q c r.2
      if r.2.isEmpty then (r.1, mqDelete q1 c) else (r.1, q1)

/- ### Basic queue lemmas -/

theorem mqGetQ_mqSet_self {α : Type} (q : MQueue α) (c : JVal) (l : List α) :
    mqGetQ (mqSet q c l) c = some l := by
  induction q with
  | nil => simp [mqSet, mqGetQ]
  | cons kv rest ih =>
    by_cases h : kv.1 == c
    · simp [mqSet, mqGetQ, h]
    · simp [mqSet, mqGetQ, h, ih]

theorem mqGetQ_mqSet_other {α : Type} (q : MQueue α) (c c' : JVal) (l : List α)
    (h : c' ≠ c) : mqGetQ (mqSet q c l) c' = mqGetQ q c' := by
  induction q with
  | nil => simp [mqSet, mqGetQ, beq_iff_eq, Ne.symm h]
  | cons kv rest ih =>
    by_cases hk : kv.1 == c
    · have hc : kv.1 = c := eq_of_beq hk
      subst hc
      simp [mqSet, mqGetQ, beq_iff_eq, Ne.symm h]
    · simp [mqSet, mqGetQ, hk, ih]

theorem mqHas_mqSet_self {α : Type} (q : MQueue α) (c : JVal) (l : List α) :
    mqHas (mqSet q c l) c = true := by
  induction q with
  | nil => simp [mqSet, mqHas]
  | cons kv rest ih =>
    by_cases h : kv.1 == c
    · simp [mqSet, mqHas, h]
    · simp [mqSet, mqHas, h, ih]

theorem mqGetQ_none_of_not_has {α : Type} (q : MQueue α) (c : JVal)
    (h : mqHas q c = false) : mqGetQ q c = none := by
  induction q with
  | nil => simp [mqGetQ]
  | cons kv rest ih =>
    simp [mqHas] at h
    simp [mqGetQ, h.1, ih h.2]

theorem mqGet_queueMessageForClient_self {α : Type} (q : MQueue α) (c : JVal) (m : α) :
    mqGet (queueMessageForClient q c m) c = mqGet q c ++ [m] := by
  unfold queueMessageForClient
  by_cases h : mqHas q c
  · simp [h, mqGet, mqGetQ_mqSet_self]
  · simp [h, mqGet, mqGetQ_mqSet_self, mqGetQ_none_of_not_has q c (by simpa using h)]

theorem mqGet_queueMessageForClient_other {α : Type} (q : MQueue α) (c c' : JVal)
    (m : α) (h : c' ≠ c) :
    mqGet (queueMessageForClient q c m) c' = mqGet q c' := by
  unfold queueMessageForClient
  by_cases hh : mqHas q c
  · simp [hh, mqGet, mqGetQ_mqSet_other _ _ _ _ h]
  · simp [hh, mqGet, mqGetQ_mqSet_other _ _ _ _ h]

theorem mqHas_mqDelete_self {α : Type} (q : MQueue α) (c : JVal) :
    mqHas (mqDelete q c) c = false := by
  induction q with
  | nil => simp [mqDelete, mqHas]
  | cons kv rest ih =>
    by_cases h : kv.1 == c
    · simpa [mqDelete, h] using ih
    · simp [mqDelete, mqHas, h] at ih ⊢
      simpa [mqDelete] using ih

/-- No message is lost or reordered by the drain loop: the messages sent
followed by the remaining array reconstitute the original array. -/
theorem drainLoop_append {α : Type} (openAt : Nat → Bool) :
    ∀ (k : Nat) (l : List α),
      (drainLoop openAt k l).1 ++ (drainLoop openAt k l).2 = l := by
  intro k l
  induction l generalizing k with
  | nil => simp [drainLoop]
  | cons m rest ih =>
    by_cases h : openAt k
    · simp [drainLoop, h, ih]
    · simp [drainLoop, h]

/- ### Notification objects (generatePayload, main.js 1237-1294) -/

mutual
/-- A JavaScript object tree as built by generatePayload: either a
primitive value or an object literal with an ordered field list. -/
inductive JTree where
  | prim (v : JVal)
  | obj (fields : JFields)

/-- The ordered own-property list of a JS object. A property can be
present with the value `undefined` (JTreeOpt.undefinedVal): such a property
still counts for Object.keys but is dropped by JSON.stringify. -/
inductive JFields where
  | nil
  | cons (name : String) (value : JTreeOpt) (rest : JFields)

/-- A property value: `undefined` or a defined tree. -/
inductive JTreeOpt where
  | undefinedVal
  | val (t : JTree)
end

/-- Object.keys of a field list: every own property name, including
properties whose value is undefined. -/
def JFields.keys : JFields → List String
  | .nil => []
  | .cons k _ rest => k :: rest.keys

/-- The forEach-delete cleanup of generatePayload applied to one object
level: remove the properties whose value is undefined. -/
def JFields.removeUndefinedProps : JFields → JFields
  | .nil => .nil
  | .cons _ .undefinedVal rest => rest.removeUndefinedProps
  | .cons k (.val t) rest => .cons k (.val t) rest.removeUndefinedProps

/-- delete obj[k] -/
def JFields.deleteKey : JFields → String → JFields
  | .nil, _ => .nil
  | .cons k v rest, k' => if k == k' then rest.deleteKey k' else .cons k v (rest.deleteKey k')

/-- Property lookup, distinguishing a missing property (none) from a
property present with value undefined (some .undefinedVal). -/
def JFields.getProp : JFields → String → Option JTreeOpt
  | .nil, _ => none
  | .cons k v rest, k' => if k == k' then some v else rest.getProp k'

/-- Object.keys at a tree (a primitive has no own enumerable keys the
code would observe; generatePayload only applies this to objects). -/
def JTree.keysOf : JTree → List String
  | .prim _ => []
  | .obj fs => fs.keys

/-- The defined object stored under field k, if any. -/
def JTree.getObj (t : JTree) (k : String) : Option JTree :=
  match t with
  | .prim _ => none
  | .obj fs =>
    match fs.getProp k with
    | some (.val v) => some v
    | _ => none

/-- Remove undefined-valued properties at the top level of a tree only
(the exact effect of one Object.keys(...).forEach(... delete ...) line). -/
def JTree.removeUndefinedTop : JTree → JTree
  | .prim v => .prim v
  | .obj fs => .obj fs.removeUndefinedProps

/-- Replace the defined object under field k by f applied to it
(used for the in-place mutation of notification.aps). -/
def JFields.modifyVal : JFields → String → (JTree → JTree) → JFields
  | .nil, _, _ => .nil
  | .cons k v rest, k', f =>
    if k == k' then
      match v with
      | .val t => .cons k (.val (f t)) rest
      | .undefinedVal => .cons k .undefinedVal rest
    else .cons k v (rest.modifyVal k' f)

/-- Apply f to the object stored at field k of a tree. -/
def JTree.modifyField (t : JTree) (k : String) (f : JTree → JTree) : JTree :=
  match t with
  | .prim v => .prim v
  | .obj fs => .obj (fs.modifyVal k f)

/-- Delete field k of the object t. -/
def JTree.deleteField (t : JTree) (k : String) : JTree :=
  match t with
  | .prim v => .prim v
  | .obj fs => .obj (fs.deleteKey k)

mutual
/-- The decoded shape of JSON.stringify output: undefined-valued
properties are dropped, recursively (build, encode, decode round trip). -/
def JTree.strip : JTree → JTree
  | .prim v => .prim v
  | .obj fs => .obj fs.strip

def JFields.strip : JFields → JFields
  | .nil => .nil
  | .cons _ .undefinedVal rest => rest.strip
  | .cons k (.val t) rest => .cons k (.val t.strip) rest.strip
end

/-- JSON string escaping for the characters this adapter can produce
(quote and backslash; control characters do not occur in the modelled
inputs). -/
def escapeJson (s : String) : String :=
  String.join (s.data.map (fun c =>
    if c = '"' then "\\\"" else if c = '\\' then "\\\\" else String.singleton c))

/-- JSON.stringify of a primitive value. -/
def JVal.stringifyPrim : JVal → String
  | .null => "null"
  | .bool b => if b then "true" else "false"
  | .num n => toString n
  | .str s => "\"" ++ escapeJson s ++ "\""

mutual
/-- JSON.stringify of a tree: undefined-valued properties are omitted. -/
def JTree.stringify : JTree → String
  | .prim v => v.stringifyPrim
  | .obj fs => "\x7b" ++ String.intercalate "," fs.stringifyParts ++ "\x7d"

def JFields.stringifyParts : JFields → List String
  | .nil => []
  | .cons _ .undefinedVal rest => rest.stringifyParts
  | .cons k (.val t) rest => ("\"" ++ escapeJson k ++ "\":" ++ t.stringify) :: rest.stringifyParts
end

/-- The message-field states generatePayload reads under the base path
(main.js 1250-1257): each is `none` when getStateAsync returned null and
`some v` when the state exists with value v. -/
structure MsgFields where
  title : Option JVal := none
  subtitle : Option JVal := none
  body : Option JVal := none
  bodyHtml : Option JVal := none
  sound : Option JVal := none
  mediaUrl : Option JVal := none
  imageUrl : Option JVal := none
  videoUrl : Option JVal := none

/-- xState ? xState.val : '' (main.js 1259-1266) -/
def readVal (st : Option JVal) : JVal := st.getD (.str "")

/-- x || undefined: the value itself when truthy, else undefined. -/
def jsOrUndefined (v : JVal) : JTreeOpt :=
  if v.truthy then .val (.prim v) else .undefinedVal

/-- The notification object literal of main.js 1268-1281, before the
cleanup lines: aps.alert always carries the three keys title, subtitle
and body (possibly with value undefined), aps carries alert and sound,
and the top level carries aps and the four rich-media fields. -/
def buildNotification (f : MsgFields) : JTree :=
  let title := readVal f.title
  let subtitle := readVal f.subtitle
  let body := readVal f.body
  let bodyHtml := readVal f.bodyHtml
  let sound := readVal f.sound
  let mediaUrl := readVal f.mediaUrl
  let imageUrl := readVal f.imageUrl
  let videoUrl := readVal f.videoUrl
  .obj (.cons "aps" (.val (.obj
          (.cons "alert" (.val (.obj
            (.cons "title" (jsOrUndefined title)
            (.cons "subtitle" (jsOrUndefined subtitle)
            (.cons "body" (jsOrUndefined body) .nil)))))
          (.cons "sound" (jsOrUndefined sound) .nil))))
    (.cons "body-html" (jsOrUndefined bodyHtml)
    (.cons "media-url" (jsOrUndefined mediaUrl)
    (.cons "image-url" (jsOrUndefined imageUrl)
    (.cons "video-url" (jsOrUndefined videoUrl) .nil)))))

/-- The cleanup lines of generatePayload (main.js 1283-1286): delete
undefined-valued properties of the top level and of aps, then delete
aps.alert when Object.keys(notification.aps.alert).length === 0. -/
def cleanupNotification (n : JTree) : JTree :=
  let n1 := n.removeUndefinedTop
  let n2 := n1.modifyField "aps" JTree.removeUndefinedTop
  let alertKeys :=
    (((n2.getObj "aps").bind (fun aps => aps.getObj "alert")).map JTree.keysOf).getD []
  if alertKeys.length == 0 then n2.modifyField "aps" (fun aps => aps.deleteField "alert")
  else n2

/-- generatePayload (main.js 1237-1294): the JSON string written to the
payload state of the triggering base path (acknowledged write). -/
def generatePayload (f : MsgFields) : String :=
  (cleanupNotification (buildNotification f)).stringify

/-- The decoded shape of the encoded payload (build, stringify, parse). -/
def encodedPayload (f : MsgFields) : JTree :=
  (cleanupNotification (buildNotification f)).strip

example : generatePayload { title := some (.str "Hi"), body := some (.str "") } =
    "\x7b\"aps\":\x7b\"alert\":\x7b\"title\":\"Hi\"\x7d\x7d\x7d" := by decide

/- ### Event trigger (onStateChange, main.js 753-765) -/

/-- endsWith of JS String.prototype.endsWith, computed on reversed
character lists. -/
def strStarts : List Char → List Char → Bool
  | [], _ => true
  | _ :: _, [] => false
  | p :: ps, c :: cs => p == c && strStarts ps cs

/-- id.endsWith(suffix) -/
def jsEndsWith (s sfx : String) : Bool :=
  strStarts sfx.data.reverse s.data.reverse

/-- The action onStateChange takes for a changed state. -/
inductive TriggerAction where
  | build
  | dispatch
  | noop
  deriving DecidableEq, Repr

/-- onStateChange (main.js 753-765) with a non-null state: generate a
payload when the id ends in .send and the new value is strictly the
boolean true (then reset the flag to false with an acknowledged write);
dispatch when the id ends in .payload and the new value is not the empty
string; otherwise do nothing. -/
def onStateChange (id : String) (val : JVal) : TriggerAction :=
  if jsEndsWith id ".send" && val == .bool true then .build
  else if jsEndsWith id ".payload" && val != .str "" then .dispatch
  else .noop

/-- The two acknowledged writes the send branch performs: the payload
string for the base path, then false written back to the send state. -/
def processSendTrigger (f : MsgFields) : String × JVal :=
  (generatePayload f, .bool false)

/- ### Sockets and the connection registry (this.clients) -/

/-- A WebSocket connection object. `sid` models the object identity used
by strict equality between sockets, `readyState` the ws readyState, and
`props` the dynamic own properties the adapter assigns (clientId and
deviceToken, main.js 1098-1099): a pair (k, none) is a property assigned
the value undefined. -/
structure Socket where
  sid : Nat
  readyState : Nat
  props : List (String × Option JVal) := []

/-- WebSocket.OPEN -/
def wsOPEN : Nat := 1

/-- socket.k = v (assignment of a dynamic property; the new binding
shadows any previous one). -/
def Socket.setProp (s : Socket) (k : String) (v : Option JVal) : Socket :=
  { s with props := (k, v) :: s.props }

/-- socket.k (access of a dynamic property; an unassigned property reads
as undefined, exactly like one assigned undefined). -/
def Socket.getProp (s : Socket) (k : String) : Option JVal :=
  (((s.props.find? (fun kv => kv.1 == k)).map (fun kv => kv.2)).getD none)

/-- this.clients: a Map from the clientId value supplied at registration
(possibly undefined, hence Option JVal) to the registered socket. -/
abbrev ClientMap := List (Option JVal × Socket)

/-- Map.get on the client registry -/
def cmGet : ClientMap → Option JVal → Option Socket
  | [], _ => none
  | kv :: rest, c => if jsStrictEq kv.1 c then some kv.2 else cmGet rest c

/-- Map.set on the client registry -/
def cmSet : ClientMap → Option JVal → Socket → ClientMap
  | [], c, s => [(c, s)]
  | kv :: rest, c, s => if jsStrictEq kv.1 c then (c, s) :: rest else kv :: cmSet rest c s

/-- Whether the registry holds an open connection for this client id. -/
def isOpenClient (clients : ClientMap) (c : JVal) : Bool :=
  match cmGet clients (some c) with
  | some s => s.readyState == wsOPEN
  | none => false

/-- sendMessageToClient (main.js 1173-1181): send immediately when the
registered connection exists and is open, otherwise queue the message.
Returns the immediate delivery, if one happened, and the queue after. -/
def sendMessageToClient {α : Type} (clients : ClientMap) (q : MQueue α)
    (clientId : JVal) (message : α) : Option (JVal × α) × MQueue α :=
  match cmGet clients (some clientId) with
  | some s =>
    if s.readyState == wsOPEN then (some (clientId, message), q)
    else (none, queueMessageForClient q clientId message)
  | none => (none, queueMessageForClient q clientId message)

/-- The socket close handler installed in the connection listener
(main.js 1064-1071): iterate the registry and, for every entry whose
.socket property strictly equals the closed socket, delete the entry and
write the connected indicator false under ns.person.<key>.connection.
The registry stores the socket objects themselves (main.js 1100) and the
code only ever assigns the properties clientId and deviceToken on them,
so reading .socket yields undefined, and an undefined or primitive
property value is never reference-equal to a socket object. -/
def socketPropMatches (client : Socket) (_closed : Socket) : Bool :=
  match client.getProp "socket" with
  | none => false
  | some _ => false

/-- The close handler itself: the surviving registry and the list of
(path key, value) connection-indicator writes it performs. -/
def handleSocketClose (clients : ClientMap) (closed : Socket) :
    ClientMap × List (Option JVal × Bool) :=
  (clients.filter (fun kv => !(socketPropMatches kv.2 closed)),
   (clients.filter (fun kv => socketPropMatches kv.2 closed)).map (fun kv => (kv.1, false)))

/- ### APN dispatch (handleAPNMessage, main.js 1296-1336) -/

/-- One device subtree of the state store: the device name and the value
of its ws_device_id state, when that state exists. -/
structure DeviceRec where
  device : String
  wsDeviceId : Option JVal := none

/-- One person subtree: the person name and its devices. -/
structure PersonRec where
  pname : String
  devices : List DeviceRec

/-- The person.* subtree of the state store. -/
abbrev StoreTree := List PersonRec

/-- The ws_device_id values of one person, as collected by
getStatesAsync(ns.person.p.*.ws_device_id) followed by
.map(state => state.val).filter(val => val). -/
def personDeviceIds (p : PersonRec) : List JVal :=
  (p.devices.filterMap (fun d => d.wsDeviceId)).filter JVal.truthy

/-- Recipient resolution of handleAPNMessage (main.js 1298-1312), from
the destructured id parts: person-level when the device part is the
literal messages, broadcast when the person part is the literal payload,
otherwise the single ws_device_id state of that device (untouched by any
truthiness filter, so a recorded null or empty id is kept and later
skipped with a warning). -/
def resolveClientIds (tree : StoreTree) (person? device? : Option String) : List JVal :=
  let pstr := person?.getD "undefined"
  let dstr := device?.getD "undefined"
  if device? == some "messages" then
    (((tree.find? (fun pr => pr.pname == pstr)).map personDeviceIds).getD [])
  else if person? == some "payload" then
    ((tree.flatMap (fun pr => pr.devices)).filterMap (fun d => d.wsDeviceId)).filter JVal.truthy
  else
    (((tree.find? (fun pr => pr.pname == pstr)).bind
        (fun pr => pr.devices.find? (fun dr => dr.device == dstr))).bind
      (fun dr => dr.wsDeviceId)).toList

/-- The for loop of handleAPNMessage (main.js 1321-1327): truthy client
ids go through sendMessageToClient, falsy ones are skipped with a logged
warning and the loop continues. Returns the immediate deliveries in
order, the queue afterwards and the number of warnings. -/
def dispatchLoop {α : Type} (clients : ClientMap) (message : α) :
    List JVal → MQueue α → List (JVal × α) × MQueue α × Nat
  | [], q => ([], q, 0)
  | cid :: rest, q =>
    if cid.truthy then
      let s := sendMessageToClient clients q cid message
      let r := dispatchLoop clients message rest s.2
      (s.1.toList ++ r.1, r.2.1, r.2.2)
    else
      let r := dispatchLoop clients message rest q
      (r.1, r.2.1, r.2.2 + 1)

/-- The outcome of one handleAPNMessage call. -/
structure DispatchResult (α : Type) where
  sent : List (JVal × α)
  queue : MQueue α
  warnings : Nat
  payloadAfter : Option JVal
  dispatched : Bool

/-- handleAPNMessage (main.js 1296-1336) on the already-split id parts
(id.split('.').slice(2), destructured as namespace, person, device).
payload? is the payload state read at the base path of the resolved
branch; when it is truthy the parsed payload is dispatched to every
resolved client id and the payload state is cleared with an acknowledged
write of the empty string, otherwise only a warning is logged. The
dispatched message is represented by the payload value itself. -/
def handleAPNMessageParts (tree : StoreTree) (clients : ClientMap)
    (q : MQueue JVal) (parts : List String) (payload? : Option JVal) :
    DispatchResult JVal :=
  let person? := parts[1]?
  let device? := parts[2]?
  let clientIds := resolveClientIds tree person? device?
  let payload := payload?.getD .null
  if payload.truthy then
    let r := dispatchLoop clients payload clientIds q
    ⟨r.1, r.2.1, r.2.2, some (.str ""), true⟩
  else
    ⟨[], q, 0, payload?, false⟩

/-- id.split('.') for a dot-separated ioBroker id, on character lists. -/
def splitCharAux (sep : Char) : List Char → List (List Char)
  | [] => [[]]
  | c :: cs =>
    match splitCharAux sep cs with
    | [] => [[c]]
    | g :: gs => if c == sep then [] :: g :: gs else (c :: g) :: gs

/-- id.split('.').slice(2) -/
def splitIdParts (id : String) : List String :=
  ((splitCharAux '.' id.data).map (fun cs => String.mk cs)).drop 2

/-- handleAPNMessage on a raw id string. -/
def handleAPNMessage (tree : StoreTree) (clients : ClientMap) (q : MQueue JVal)
    (id : String) (payload? : Option JVal) : DispatchResult JVal :=
  handleAPNMessageParts tree clients q (splitIdParts id) payload?

example : splitIdParts "iobapp.0.person.alice.phone.messages.payload" =
    ["person", "alice", "phone", "messages", "payload"] := by decide

/- ### WebSocket message handling (handleWebSocketMessage, main.js 1083-1170) -/

/-- Template-literal rendering of a possibly-undefined JS value, as used
when building state paths from message fields. -/
def jsToStringOpt : Option JVal → String
  | none => "undefined"
  | some .null => "null"
  | some (.bool b) => if b then "true" else "false"
  | some (.num n) => toString n
  | some (.str s) => s

/-- The data object of a setDeviceToken message (only the fields the
handler reads are modelled). -/
structure DataObj where
  deviceToken : Option JVal := none
  person : Option JVal := none
  device : Option JVal := none

/-- A decoded inbound transport message: the destructured fields of the
parsed JSON (main.js 1086). -/
structure ParsedMsg where
  action : Option JVal := none
  username : Option JVal := none
  password : Option JVal := none
  clientId : Option JVal := none
  dataObj : Option DataObj := none

/-- An inbound transport frame: either undecodable (JSON.parse throws)
or a decoded message. -/
inductive RawMsg where
  | malformed
  | parsed (m : ParsedMsg)

/-- The configured credentials (this.config), undefined when unset. -/
structure Config where
  username : Option JVal := none
  password : Option JVal := none

/-- The reply the handler sends on the socket. -/
inductive WSReply where
  | authFailed
  | invalidFormat
  | unknownAction
  | setDeviceTokenSuccess
  | handled (action : String)
  deriving DecidableEq, Repr

/-- The switch labels of main.js 1093-1161. -/
def knownActions : List String :=
  ["setDeviceToken", "onlineState", "getPersons", "getDevices", "postPersons",
   "postDevices", "set", "setPresence", "getZones", "tagsTrigger", "createTag"]

/-- Whether the action value hits a non-default switch case. -/
def actionKnown : Option JVal → Bool
  | some (.str s) => knownActions.contains s
  | _ => false

/-- The outcome of the setDeviceToken case (main.js 1094-1131). -/
structure RegisterResult (α : Type) where
  clients : ClientMap
  queue : MQueue α
  sent : List α
  wsIdWrite : String × Option JVal
  connWrite : String × Bool
  reply : WSReply

/-- The setDeviceToken case of handleWebSocketMessage (main.js
1094-1131): assign clientId and deviceToken on the socket, register it
in this.clients under the clientId key, write the ws_device_id state
(acknowledged) and the connection indicator true for person.device,
reply success, and immediately flush that clients queued messages with
sendQueuedMessages. State paths are given relative to the adapter
namespace. -/
def handleSetDeviceToken {α : Type} (clients : ClientMap) (q : MQueue α)
    (clientId? : Option JVal) (dat : DataObj) (sock : Socket) : RegisterResult α :=
  let person := jsToStringOpt dat.person
  let device := jsToStringOpt dat.device
  let sock1 := (sock.setProp "clientId" clientId?).setProp "deviceToken" dat.deviceToken
  let clients1 := cmSet clients clientId? sock1
  let wsIdWrite := ("person." ++ person ++ "." ++ device ++ ".ws_device_id", clientId?)
  let connWrite := ("person." ++ person ++ "." ++ device ++ ".connection", true)
  let r := sendQueuedMessages q (sock1.getProp "clientId")
            (fun _ => sock1.readyState == wsOPEN)
  ⟨clients1, r.2, r.1, wsIdWrite, connWrite, .setDeviceTokenSuccess⟩

/-- The observable outcome of one handleWebSocketMessage call. -/
structure WSResult (α : Type) where
  reply : WSReply
  clients : ClientMap
  queue : MQueue α
  sent : List α
  wsIdWrites : List (String × Option JVal)
  connWrites : List (String × Bool)

/-- handleWebSocketMessage (main.js 1083-1170): an undecodable frame is
answered with the invalid-format error from the catch block before
anything is touched; then every decoded message is authenticated, a
failure is answered and processing stops; setDeviceToken with a missing
data object throws on data.deviceToken and lands in the same catch
block; a recognized non-registration action is routed to its handler
(none of which touch the registry or the queue); anything else falls to
the default case and is answered with the unknown-action error. -/
def handleWebSocketMessage (cfg : Config) (clients : ClientMap) (q : MQueue JVal)
    (sock : Socket) (raw : RawMsg) : WSResult JVal :=
  match raw with
  | .malformed => ⟨.invalidFormat, clients, q, [], [], []⟩
  | .parsed m =>
    if !(authenticate m.username m.password cfg.username cfg.password) then
      ⟨.authFailed, clients, q, [], [], []⟩
    else
      if m.action == some (.str "setDeviceToken") then
        match m.dataObj with
        | none => ⟨.invalidFormat, clients, q, [], [], []⟩
        | some dat =>
          let r := handleSetDeviceToken clients q m.clientId dat sock
          ⟨r.reply, r.clients, r.queue, r.sent, [r.wsIdWrite], [r.connWrite]⟩
      else if actionKnown m.action then
        ⟨.handled (jsToStringOpt m.action), clients, q, [], [], []⟩
      else
        ⟨.unknownAction, clients, q, [], [], []⟩

/- ### Further queue lemmas -/

theorem mqHas_queueMessageForClient_self {α : Type} (q : MQueue α) (c : JVal) (m : α) :
    mqHas (queueMessageForClient q c m) c = true := by
  unfold queueMessageForClient
  by_cases h : mqHas q c <;> simp [h, mqHas_mqSet_self]

theorem mem_mqSet {α : Type} (q : MQueue α) (c : JVal) (l : List α)
    (kv : JVal × List α) (h : kv ∈ mqSet q c l) : kv = (c, l) ∨ kv ∈ q := by
  induction q with
  | nil => simp [mqSet] at h; simp [h]
  | cons kv0 rest ih =>
    by_cases h0 : kv0.1 == c
    · simp [mqSet, h0] at h
      rcases h with h | h
      · exact Or.inl h
      · exact Or.inr (List.mem_cons_of_mem _ h)
    · simp [mqSet, h0] at h
      rcases h with h | h
      · exact Or.inr (by simp [h])
      · rcases ih h with h' | h'
        · exact Or.inl h'
        · exact Or.inr (List.mem_cons_of_mem _ h')

theorem mqSet_of_not_has {α : Type} (q : MQueue α) (c : JVal) (l : List α)
    (h : mqHas q c = false) : mqSet q c l = q ++ [(c, l)] := by
  induction q with
  | nil => simp [mqSet]
  | cons kv rest ih =>
    simp [mqHas] at h
    simp [mqSet, h.1, ih h.2]

theorem mqSet_append_self {α : Type} (q : MQueue α) (c : JVal) (l l' : List α)
    (h : mqHas q c = false) : mqSet (q ++ [(c, l)]) c l' = q ++ [(c, l')] := by
  induction q with
  | nil => simp [mqSet]
  | cons kv rest ih =>
    simp [mqHas] at h
    simp [mqSet, h.1, ih h.2]

/-- Per-client queue well-formedness: no entry holds an empty array. -/
def mqWF {α : Type} (q : MQueue α) : Prop := ∀ kv ∈ q, kv.2 ≠ []

theorem queueMessageForClient_of_not_has {α : Type} (q : MQueue α) (c : JVal) (m : α)
    (h : mqHas q c = false) : queueMessageForClient q c m = q ++ [(c, [m])] := by
  unfold queueMessageForClient
  simp only [h, Bool.false_eq_true, if_false, mqGet, mqGetQ_mqSet_self,
    Option.getD_some, List.nil_append]
  rw [mqSet_of_not_has q c [] h, mqSet_append_self q c [] [m] h]

theorem mqWF_queueMessageForClient {α : Type} (q : MQueue α) (c : JVal) (m : α)
    (h : mqWF q) : mqWF (queueMessageForClient q c m) := by
  by_cases hh : mqHas q c
  · unfold queueMessageForClient
    simp only [hh, if_true]
    intro kv hkv
    rcases mem_mqSet _ _ _ _ hkv with h' | h'
    · subst h'; simp
    · exact h _ h'
  · rw [queueMessageForClient_of_not_has q c m (by simpa using hh)]
    intro kv hkv
    rcases List.mem_append.mp hkv with h' | h'
    · exact h _ h'
    · simp at h'; subst h'; simp

theorem mqWF_sendQueuedMessages {α : Type} (q : MQueue α) (cid : Option JVal)
    (openAt : Nat → Bool) (h : mqWF q) : mqWF (sendQueuedMessages q cid openAt).2 := by
  unfold sendQueuedMessages
  match cid with
  | none => exact h
  | some c =>
    by_cases ht : c.truthy
    · by_cases hh : mqHas q c
      · simp only [ht, hh, Bool.not_true, Bool.false_eq_true, if_false]
        by_cases he : (drainLoop openAt 0 (mqGet q c)).2.isEmpty
        · simp only [he, if_true]
          intro kv hkv
          have hkv' := List.mem_filter.mp hkv
          rcases mem_mqSet _ _ _ _ hkv'.1 with h' | h'
          · exfalso
            have : kv.1 == c := by simp [h']
            simp [this] at hkv'
          · exact h _ h'
        · simp only [he, if_false]
          intro kv hkv
          rcases mem_mqSet _ _ _ _ hkv with h' | h'
          · subst h'
            simpa [List.isEmpty_iff] using he
          · exact h _ h'
      · simp [ht, hh, h]
    · simp [ht, h]

/- ### Dispatch loop lemmas -/

theorem sendMessageToClient_eq {α : Type} (clients : ClientMap) (q : MQueue α)
    (cid : JVal) (m : α) :
    sendMessageToClient clients q cid m =
      (if isOpenClient clients cid then (some (cid, m), q)
       else (none, queueMessageForClient q cid m)) := by
  unfold sendMessageToClient isOpenClient
  cases h : cmGet clients (some cid) with
  | none => simp
  | some s => by_cases hr : s.readyState == wsOPEN <;> simp [hr]

theorem dispatchLoop_sent {α : Type} (clients : ClientMap) (m : α) :
    ∀ (ids : List JVal) (q : MQueue α),
      (dispatchLoop clients m ids q).1 =
        (ids.filter (fun c => c.truthy && isOpenClient clients c)).map (fun c => (c, m)) := by
  intro ids
  induction ids with
  | nil => intro q; simp [dispatchLoop]
  | cons cid rest ih =>
    intro q
    by_cases ht : cid.truthy
    · by_cases ho : isOpenClient clients cid
      <;> simp [dispatchLoop, ht, ho, sendMessageToClient_eq, ih]
    · simp [dispatchLoop, ht, ih]

theorem dispatchLoop_warnings {α : Type} (clients : ClientMap) (m : α) :
    ∀ (ids : List JVal) (q : MQueue α),
      (dispatchLoop clients m ids q).2.2 = ids.countP (fun c => !c.truthy) := by
  intro ids
  induction ids with
  | nil => intro q; simp [dispatchLoop]
  | cons cid rest ih =>
    intro q
    by_cases ht : cid.truthy
    · by_cases ho : isOpenClient clients cid
      <;> simp [dispatchLoop, ht, ho, sendMessageToClient_eq, ih, List.countP_cons]
    · simp [dispatchLoop, ht, ih, List.countP_cons]

theorem dispatchLoop_queue_not_mem {α : Type} (clients : ClientMap) (m : α) :
    ∀ (ids : List JVal) (q : MQueue α) (c : JVal), c ∉ ids →
      mqGet (dispatchLoop clients m ids q).2.1 c = mqGet q c := by
  intro ids
  induction ids with
  | nil => intro q c _; simp [dispatchLoop]
  | cons cid rest ih =>
    intro q c hc
    have hc1 : c ≠ cid := fun h => hc (by simp [h])
    have hc2 : c ∉ rest := fun h => hc (List.mem_cons_of_mem _ h)
    by_cases ht : cid.truthy
    · by_cases ho : isOpenClient clients cid
      · simp [dispatchLoop, ht, ho, sendMessageToClient_eq, ih _ _ hc2]
      · simp [dispatchLoop, ht, ho, sendMessageToClient_eq, ih _ _ hc2,
          mqGet_queueMessageForClient_other _ _ _ _ hc1]
    · simp [dispatchLoop, ht, ih _ _ hc2]

theorem dispatchLoop_queue_mem {α : Type} (clients : ClientMap) (m : α) :
    ∀ (ids : List JVal) (q : MQueue α) (c : JVal), ids.Nodup → c ∈ ids →
      c.truthy = true → isOpenClient clients c = false →
      mqGet (dispatchLoop clients m ids q).2.1 c = mqGet q c ++ [m] := by
  intro ids
  induction ids with
  | nil => intro q c _ hc; simp at hc
  | cons cid rest ih =>
    intro q c hnd hc ht ho
    rcases List.nodup_cons.mp hnd with ⟨hnotin, hnd'⟩
    rcases List.mem_cons.mp hc with hceq | hcrest
    · subst hceq
      simp only [dispatchLoop, ht, if_true, sendMessageToClient_eq, ho, Bool.false_eq_true,
        if_false]
      rw [dispatchLoop_queue_not_mem clients m rest _ c hnotin,
        mqGet_queueMessageForClient_self]
    · have hne : c ≠ cid := fun h => hnotin (h ▸ hcrest)
      by_cases ht0 : cid.truthy
      · by_cases ho0 : isOpenClient clients cid
        · simp [dispatchLoop, ht0, ho0, sendMessageToClient_eq, ih _ _ hnd' hcrest ht ho]
        · simp only [dispatchLoop, ht0, if_true, sendMessageToClient_eq, ho0,
            Bool.false_eq_true, if_false]
          rw [ih _ _ hnd' hcrest ht ho, mqGet_queueMessageForClient_other _ _ _ _ hne]
      · simp [dispatchLoop, ht0, ih _ _ hnd' hcrest ht ho]

/- ### Claim theorems -/

/-- C1 (counterexample evaluation): with every message field absent, the
sources title, subtitle and body all read as the empty string, yet the
encoded NotificationPayload still contains the key alert inside aps (as
an empty object): the undefined-valued keys title, subtitle and body
keep Object.keys(notification.aps.alert).length at 3, so the cleanup
that should delete the empty alert block never fires and the emitted
payload is the string with an empty alert object. -/
theorem generatePayload_alert_present_when_all_empty :
    (readVal (MsgFields.title {}) = .str ""
      ∧ readVal (MsgFields.subtitle {}) = .str ""
      ∧ readVal (MsgFields.body {}) = .str "")
    ∧ encodedPayload {} =
        .obj (.cons "aps" (.val (.obj (.cons "alert" (.val (.obj .nil)) .nil))) .nil)
    ∧ generatePayload {} = "\x7b\"aps\":\x7b\"alert\":\x7b\x7d\x7d\x7d"
    ∧ "alert" ∈ JTree.keysOf (((encodedPayload {}).getObj "aps").getD (.obj .nil)) := by
  refine ⟨⟨rfl, rfl, rfl⟩, rfl, by decide, by decide⟩

theorem socketPropMatches_false (client closed : Socket) :
    socketPropMatches client closed = false := by
  unfold socketPropMatches
  cases client.getProp "socket" <;> rfl

/-- C5 (counterexample evaluation): the close handler removes no registry
entry and performs no connected-indicator write, whatever the registry
and the closed socket are, because it compares the nonexistent .socket
property of each stored socket with the closed socket. In particular a
registry entry keeps pointing at a socket whose transport has closed. -/
theorem handleSocketClose_removes_nothing (clients : ClientMap) (closed : Socket) :
    handleSocketClose clients closed = (clients, []) := by
  unfold handleSocketClose
  simp [socketPropMatches_false]

theorem jsStrictEq_iff (a b : Option JVal) : jsStrictEq a b = true ↔ a = b := by
  cases a <;> cases b <;> simp [jsStrictEq]

/-- C10: authentication of an inbound transport message is strict
equality of the username and password fields against the configured
credentials; with no credentials configured, a message omitting both
fields authenticates and is processed (here: a getPersons message is
routed to its handler, not rejected). -/
theorem authenticate_is_strict_equality :
    (∀ u p cu cp : Option JVal, authenticate u p cu cp = true ↔ (u = cu ∧ p = cp))
    ∧ authenticate none none none none = true
    ∧ (∀ (clients : ClientMap) (q : MQueue JVal) (sock : Socket),
        handleWebSocketMessage {} clients q sock
          (.parsed { action := some (.str "getPersons") }) =
          ⟨.handled "getPersons", clients, q, [], [], []⟩) := by
  refine ⟨?_, rfl, ?_⟩
  · intro u p cu cp
    simp [authenticate, Bool.and_eq_true, jsStrictEq_iff]
  · intro clients q sock
    rfl

/-- C9: an undecodable frame is answered with exactly the invalid-format
error and mutates nothing; failed authentication is answered with the
authentication-failed error and stops all processing; a decoded message
whose action hits no switch case is answered with the unknown-action
error. -/
theorem handleWebSocketMessage_error_replies :
    (∀ (cfg : Config) (clients : ClientMap) (q : MQueue JVal) (sock : Socket),
       handleWebSocketMessage cfg clients q sock .malformed =
         ⟨.invalidFormat, clients, q, [], [], []⟩)
    ∧ (∀ (cfg : Config) (clients : ClientMap) (q : MQueue JVal) (sock : Socket)
         (m : ParsedMsg),
        authenticate m.username m.password cfg.username cfg.password = false →
        handleWebSocketMessage cfg clients q sock (.parsed m) =
          ⟨.authFailed, clients, q, [], [], []⟩)
    ∧ (∀ (cfg : Config) (clients : ClientMap) (q : MQueue JVal) (sock : Socket)
         (m : ParsedMsg),
        authenticate m.username m.password cfg.username cfg.password = true →
        actionKnown m.action = false →
        handleWebSocketMessage cfg clients q sock (.parsed m) =
          ⟨.unknownAction, clients, q, [], [], []⟩) := by
  refine ⟨fun _ _ _ _ => rfl, ?_, ?_⟩
  · intro cfg clients q sock m h
    simp [handleWebSocketMessage, h]
  · intro cfg clients q sock m h hk
    have hne : ¬(m.action == some (.str "setDeviceToken")) = true := by
      intro hb
      have := eq_of_beq hb
      rw [this] at hk
      simp [actionKnown, knownActions] at hk
    simp [handleWebSocketMessage, h, hne, hk]

/-- C9 witness at concrete inputs: a malformed frame, a message with a
wrong password against configured credentials, and an authenticated
message with an unrecognized action value. -/
theorem handleWebSocketMessage_error_replies_witness :
    (handleWebSocketMessage {} [] [] ⟨0, 1, []⟩ .malformed =
       ⟨.invalidFormat, [], [], [], [], []⟩)
    ∧ (handleWebSocketMessage { username := some (.str "u"), password := some (.str "pw") }
        [] [] ⟨0, 1, []⟩
        (.parsed { action := some (.str "getPersons"), username := some (.str "u"),
                   password := some (.str "bad") }) =
        ⟨.authFailed, [], [], [], [], []⟩)
    ∧ (handleWebSocketMessage {} [] [] ⟨0, 1, []⟩
        (.parsed { action := some (.str "doesNotExist") }) =
        ⟨.unknownAction, [], [], [], [], []⟩) :=
  ⟨handleWebSocketMessage_error_replies.1 {} [] [] ⟨0, 1, []⟩,
   handleWebSocketMessage_error_replies.2.1 _ [] [] ⟨0, 1, []⟩ _ (by decide),
   handleWebSocketMessage_error_replies.2.2 {} [] [] ⟨0, 1, []⟩ _ (by decide) (by decide)⟩

/-- C8: a send signal builds a payload exactly when the changed id ends
in .send and the new value is strictly the boolean true; truthy values
that are not the boolean true (the number 1, the strings true and x) do
not fire it; the build step writes false back to the flag, and a false
value never fires a new build whatever the id; on the scenario store
(title Hi, body empty) the builder emits the payload with only the title
inside the alert block and resets the flag to false. -/
theorem onStateChange_send_strict_true :
    (∀ (id : String) (v : JVal),
       onStateChange id v = .build ↔ (jsEndsWith id ".send" = true ∧ v = .bool true))
    ∧ onStateChange "iobapp.0.person.alice.phone.messages.send" (.num 1) = .noop
    ∧ onStateChange "iobapp.0.person.alice.phone.messages.send" (.str "true") = .noop
    ∧ onStateChange "iobapp.0.person.alice.phone.messages.send" (.str "x") = .noop
    ∧ (∀ id : String, onStateChange id (.bool false) ≠ .build)
    ∧ processSendTrigger { title := some (.str "Hi"), body := some (.str "") } =
        ("\x7b\"aps\":\x7b\"alert\":\x7b\"title\":\"Hi\"\x7d\x7d\x7d", .bool false) := by
  refine ⟨?_, by decide, by decide, by decide, ?_, by decide⟩
  · intro id v
    unfold onStateChange
    by_cases h1 : jsEndsWith id ".send" = true <;> by_cases h2 : v = JVal.bool true
    · subst h2; simp [h1]
    · have : (v == JVal.bool true) = false := by simpa using h2
      simp only [h1, this, Bool.and_false, Bool.false_eq_true, if_false]
      constructor
      · intro h; exfalso; revert h; split <;> simp
      · rintro ⟨-, h⟩; exact absurd h h2
    · have : jsEndsWith id ".send" = false := by simpa using h1
      simp only [this, Bool.false_and, Bool.false_eq_true, if_false]
      constructor
      · intro h; exfalso; revert h; split <;> simp
      · rintro ⟨h, -⟩; exact h.elim
    · have hv : (v == JVal.bool true) = false := by simpa using h2
      have he : jsEndsWith id ".send" = false := by simpa using h1
      simp only [he, Bool.false_and, Bool.false_eq_true, if_false]
      constructor
      · intro h; exfalso; revert h; split <;> simp
      · rintro ⟨h, -⟩; exact h.elim
  · intro id
    unfold onStateChange
    simp only [show (JVal.bool false == JVal.bool true) = false by decide, Bool.and_false,
      Bool.false_eq_true, if_false]
    split <;> simp

/-- C4: whenever handleAPNMessage dispatches (the payload state at the
triggering base path is truthy), the payload state is cleared by an
acknowledged write of the empty string; a payload state change is acted
on only when the new value is distinct from the empty string, so the
clearing write never re-triggers dispatch, and a falsy payload value
dispatches nothing and leaves the queue and payload state untouched. -/
theorem handleAPNMessage_consumes_payload_once :
    (∀ (tree : StoreTree) (clients : ClientMap) (q : MQueue JVal)
       (parts : List String) (payload : JVal), payload.truthy = true →
       (handleAPNMessageParts tree clients q parts (some payload)).payloadAfter =
           some (.str "")
       ∧ (handleAPNMessageParts tree clients q parts (some payload)).dispatched = true)
    ∧ (∀ id : String, onStateChange id (.str "") ≠ .dispatch)
    ∧ (∀ (id : String) (v : JVal), onStateChange id v = .dispatch → v ≠ .str "")
    ∧ (∀ (tree : StoreTree) (clients : ClientMap) (q : MQueue JVal)
        (parts : List String) (payload? : Option JVal),
        (payload?.getD .null).truthy = false →
        handleAPNMessageParts tree clients q parts payload? =
          ⟨[], q, 0, payload?, false⟩) := by
  refine ⟨?_, ?_, ?_, ?_⟩
  · intro tree clients q parts payload h
    unfold handleAPNMessageParts
    simp [h]
  · intro id
    unfold onStateChange
    simp only [show (JVal.str "" == JVal.bool true) = false by decide, Bool.and_false,
      Bool.false_eq_true, if_false,
      show (JVal.str "" != JVal.str "") = false by decide]
    simp
  · intro id v h hv
    subst hv
    revert h
    unfold onStateChange
    simp only [show (JVal.str "" == JVal.bool true) = false by decide, Bool.and_false,
      Bool.false_eq_true, if_false,
      show (JVal.str "" != JVal.str "") = false by decide]
    simp
  · intro tree clients q parts payload? h
    unfold handleAPNMessageParts
    simp [h]

/-- C4 witness: a device-level dispatch for a concrete store with a
truthy payload clears the payload state, and the clearing write (empty
string at a .payload id) triggers nothing. -/
theorem handleAPNMessage_consumes_payload_once_witness :
    ((handleAPNMessageParts [⟨"alice", [⟨"phone", some (.str "c1")⟩]⟩]
        [(some (.str "c1"), ⟨0, 1, []⟩)] []
        ["person", "alice", "phone", "messages", "payload"]
        (some (.str "PAY"))).payloadAfter = some (.str "")
      ∧ (handleAPNMessageParts [⟨"alice", [⟨"phone", some (.str "c1")⟩]⟩]
        [(some (.str "c1"), ⟨0, 1, []⟩)] []
        ["person", "alice", "phone", "messages", "payload"]
        (some (.str "PAY"))).dispatched = true)
    ∧ onStateChange "iobapp.0.person.alice.phone.messages.payload" (.str "") ≠ .dispatch
    ∧ handleAPNMessageParts [] [] [] ["person", "alice", "phone", "messages", "payload"]
        (some (.str "")) = ⟨[], [], 0, some (.str ""), false⟩ :=
  ⟨handleAPNMessage_consumes_payload_once.1 _ _ _ _ _ (by decide),
   handleAPNMessage_consumes_payload_once.2.1 _,
   handleAPNMessage_consumes_payload_once.2.2.2 _ _ _ _ _ (by decide)⟩

/-- C2: the drain loop never loses or reorders messages (sent followed by
remaining is the original array); enqueue A then B then drain on an open
connection sends A then B; when the connection is not open at the first
iteration the head message is pushed back to the front of the sequence
and draining stops with nothing sent. -/
theorem sendQueuedMessages_fifo_pushback :
    (∀ (α : Type) (openAt : Nat → Bool) (l : List α),
       (drainLoop openAt 0 l).1 ++ (drainLoop openAt 0 l).2 = l)
    ∧ (∀ (α : Type) (q : MQueue α) (c : JVal) (A B : α),
        c.truthy = true → mqGet q c = [] →
        (sendQueuedMessages (queueMessageForClient (queueMessageForClient q c A) c B)
          (some c) (fun _ => true)).1 = [A, B])
    ∧ (∀ (α : Type) (q : MQueue α) (c : JVal) (openAt : Nat → Bool) (m : α)
         (rest : List α),
        c.truthy = true → openAt 0 = false → mqHas q c = true → mqGet q c = m :: rest →
        (sendQueuedMessages q (some c) openAt).1 = []
        ∧ mqGet (sendQueuedMessages q (some c) openAt).2 c = m :: rest) := by
  refine ⟨fun α openAt l => drainLoop_append openAt 0 l, ?_, ?_⟩
  · intro α q c A B ht h0
    have hget : mqGet (queueMessageForClient (queueMessageForClient q c A) c B) c
        = [A, B] := by
      rw [mqGet_queueMessageForClient_self, mqGet_queueMessageForClient_self, h0]
      rfl
    have hhas := mqHas_queueMessageForClient_self (queueMessageForClient q c A) c B
    unfold sendQueuedMessages
    simp [ht, hhas, hget, drainLoop]
  · intro α q c openAt m rest ht h0 hh hget
    unfold sendQueuedMessages
    have hd : drainLoop openAt 0 (mqGet q c) = ([], m :: rest) := by
      rw [hget]
      unfold drainLoop
      simp [h0]
    simp only [ht, hh, Bool.not_true, Bool.false_eq_true, if_false]
    rw [hd]
    simp [mqGet, mqGetQ_mqSet_self]

/-- C2 witness: a concrete client with messages one and two queued in
order, drained over an open connection, and a concrete closed-connection
drain that pushes the head back. -/
theorem sendQueuedMessages_fifo_pushback_witness :
    (sendQueuedMessages
        (queueMessageForClient (queueMessageForClient ([] : MQueue JVal)
          (.str "c") (.str "A")) (.str "c") (.str "B"))
        (some (.str "c")) (fun _ => true)).1 = [.str "A", .str "B"]
    ∧ ((sendQueuedMessages [((JVal.str "c"), [JVal.str "A", JVal.str "B"])]
          (some (.str "c")) (fun _ => false)).1 = []
        ∧ mqGet (sendQueuedMessages [((JVal.str "c"), [JVal.str "A", JVal.str "B"])]
            (some (.str "c")) (fun _ => false)).2 (.str "c") = [.str "A", .str "B"]) :=
  ⟨sendQueuedMessages_fifo_pushback.2.1 JVal [] (.str "c") (.str "A") (.str "B")
      (by decide) (by decide),
   sendQueuedMessages_fifo_pushback.2.2 JVal _ (.str "c") (fun _ => false)
      (.str "A") [.str "B"] (by decide) (by decide) (by decide) (by decide)⟩

/-- C7: the queue mapping never holds an empty sequence: enqueue and
drain both preserve the no-empty-entry invariant (enqueue creates an
entry only together with the appended message), drain on a client with
no entry returns the queue unchanged (no entry created), and a drain
that empties the sequence deletes the entry. -/
theorem messageQueue_no_empty_entries :
    (∀ (α : Type) (q : MQueue α) (c : JVal) (m : α),
       mqWF q → mqWF (queueMessageForClient q c m))
    ∧ (∀ (α : Type) (q : MQueue α) (cid : Option JVal) (openAt : Nat → Bool),
        mqWF q → mqWF (sendQueuedMessages q cid openAt).2)
    ∧ (∀ (α : Type) (q : MQueue α) (c : JVal) (openAt : Nat → Bool),
        mqHas q c = false → sendQueuedMessages q (some c) openAt = ([], q))
    ∧ (∀ (α : Type) (q : MQueue α) (c : JVal) (openAt : Nat → Bool),
        c.truthy = true → (drainLoop openAt 0 (mqGet q c)).2 = [] →
        mqHas (sendQueuedMessages q (some c) openAt).2 c = false) := by
  refine ⟨fun α q c m h => mqWF_queueMessageForClient q c m h,
          fun α q cid openAt h => mqWF_sendQueuedMessages q cid openAt h, ?_, ?_⟩
  · intro α q c openAt h
    unfold sendQueuedMessages
    by_cases ht : c.truthy <;> simp [ht, h]
  · intro α q c openAt ht hempty
    by_cases hh : mqHas q c
    · unfold sendQueuedMessages
      simp only [ht, hh, Bool.not_true, Bool.false_eq_true, if_false]
    
      rw [hempty]
      simp [mqHas_mqDelete_self]
    · unfold sendQueuedMessages
      simp only [ht, Bool.not_true, Bool.false_eq_true, if_false]
      simp [hh]

/-- C7 witness: enqueueing into a well-formed queue keeps it well
formed; draining a client with no entry is exactly the identity; a full
drain deletes the entry. -/
theorem messageQueue_no_empty_entries_witness :
    mqWF (queueMessageForClient ([] : MQueue JVal) (.str "c") (.str "m"))
    ∧ sendQueuedMessages ([((JVal.str "x"), [JVal.str "m"])] : MQueue JVal)
        (some (.str "c")) (fun _ => true) = ([], [((JVal.str "x"), [JVal.str "m"])])
    ∧ mqHas (sendQueuedMessages ([((JVal.str "c"), [JVal.str "m"])] : MQueue JVal)
        (some (.str "c")) (fun _ => true)).2 (.str "c") = false :=
  ⟨messageQueue_no_empty_entries.1 JVal [] (.str "c") (.str "m") (by simp [mqWF]),
   messageQueue_no_empty_entries.2.2.1 JVal _ (.str "c") (fun _ => true) (by decide),
   messageQueue_no_empty_entries.2.2.2 JVal _ (.str "c") (fun _ => true)
     (by decide) (by decide)⟩

/-- C6: the setDeviceToken registration path itself flushes the queued
messages of the registering client identifier: with two messages queued
for it and an open socket, registration delivers both, in their enqueue
order, and removes the emptied queue entry, with no separate dispatch
call involved. -/
theorem handleSetDeviceToken_replays_queue :
    ∀ (α : Type) (clients : ClientMap) (q : MQueue α) (cid : JVal) (dat : DataObj)
      (sock : Socket) (m1 m2 : α),
      cid.truthy = true → sock.readyState = wsOPEN →
      mqHas q cid = true → mqGet q cid = [m1, m2] →
      (handleSetDeviceToken clients q (some cid) dat sock).sent = [m1, m2]
      ∧ mqHas (handleSetDeviceToken clients q (some cid) dat sock).queue cid = false := by
  intro α clients q cid dat sock m1 m2 ht hopen hh hget
  unfold handleSetDeviceToken
  have hprop : ((sock.setProp "clientId" (some cid)).setProp "deviceToken"
      dat.deviceToken).getProp "clientId" = some cid := by
    simp [Socket.setProp, Socket.getProp, List.find?]
  have hstate : ((sock.setProp "clientId" (some cid)).setProp "deviceToken"
      dat.deviceToken).readyState = wsOPEN := by
    simp [Socket.setProp, hopen]
  simp only [hprop, hstate]
  unfold sendQueuedMessages
  simp only [ht, hh, Bool.not_true, Bool.false_eq_true, if_false]
  rw [show (fun (_ : Nat) => ((wsOPEN : Nat) == wsOPEN)) = fun _ => true by
        funext k; simp]
  have hd2 : drainLoop (fun _ => true) 0 (mqGet q cid) = ([m1, m2], []) := by
    rw [hget]; simp [drainLoop]
  rw [hd2]
  simp [mqHas_mqDelete_self]

/-- C6 witness: client c with messages one and two queued registers over
an open socket and receives both in order; its queue entry is removed. -/
theorem handleSetDeviceToken_replays_queue_witness :
    (handleSetDeviceToken [] ([((JVal.str "c"), [JVal.str "m1", JVal.str "m2"])])
        (some (.str "c")) {} ⟨0, 1, []⟩).sent = [.str "m1", .str "m2"]
    ∧ mqHas (handleSetDeviceToken [] ([((JVal.str "c"), [JVal.str "m1", JVal.str "m2"])])
        (some (.str "c")) {} ⟨0, 1, []⟩).queue (.str "c") = false :=
  handleSetDeviceToken_replays_queue JVal [] _ (.str "c") {} ⟨0, 1, []⟩
    (.str "m1") (.str "m2") (by decide) (by decide) (by decide) (by decide)

/-- The delivery contract of one dispatch run: every resolved client
identifier that is truthy and has an open registered connection is sent
to immediately, in resolution order; every falsy resolved identifier is
skipped with one logged warning; and every truthy resolved identifier
without an open connection has the message appended to the tail of its
queue sequence. -/
def dispatchSpec (clients : ClientMap) (q : MQueue JVal) (payload : JVal)
    (ids : List JVal) (r : DispatchResult JVal) : Prop :=
  r.sent = (ids.filter (fun c => c.truthy && isOpenClient clients c)).map
      (fun c => (c, payload))
  ∧ r.warnings = ids.countP (fun c => !c.truthy)
  ∧ (ids.Nodup → ∀ c ∈ ids, c.truthy = true → isOpenClient clients c = false →
      mqGet r.queue c = mqGet q c ++ [payload])

theorem dispatchSpec_of_dispatchLoop (clients : ClientMap) (q : MQueue JVal)
    (payload : JVal) (ids : List JVal) :
    dispatchSpec clients q payload ids
      ⟨(dispatchLoop clients payload ids q).1, (dispatchLoop clients payload ids q).2.1,
       (dispatchLoop clients payload ids q).2.2, some (.str ""), true⟩ := by
  refine ⟨dispatchLoop_sent clients payload ids q,
          dispatchLoop_warnings clients payload ids q, ?_⟩
  intro hnd c hc ht ho
  exact dispatchLoop_queue_mem clients payload ids q c hnd hc ht ho

/-- C3: for a truthy payload, a device-level id resolves to exactly the
ws_device_id state of that device (kept even when falsy, hence the
warning path), a person-level id (device part is the literal messages)
resolves to the recorded truthy ws_device_id values of all devices of
that person, and the broadcast id resolves to the recorded truthy
ws_device_id values of every device of every person; in each case every
truthy resolved identifier with an open registered connection is sent to
immediately, every falsy one is skipped with a warning while dispatch
continues, and every truthy one without an open connection has the
message enqueued for it. -/
theorem handleAPNMessage_resolves_and_delivers :
    ∀ (tree : StoreTree) (clients : ClientMap) (q : MQueue JVal) (payload : JVal)
      (p d : String), payload.truthy = true →
    (d ≠ "messages" → p ≠ "payload" →
      dispatchSpec clients q payload
        ((((tree.find? (fun pr => pr.pname == p)).bind
            (fun pr => pr.devices.find? (fun dr => dr.device == d))).bind
          (fun dr => dr.wsDeviceId)).toList)
        (handleAPNMessageParts tree clients q
          ["person", p, d, "messages", "payload"] (some payload)))
    ∧ dispatchSpec clients q payload
        (((tree.find? (fun pr => pr.pname == p)).map personDeviceIds).getD [])
        (handleAPNMessageParts tree clients q
          ["person", p, "messages", "payload"] (some payload))
    ∧ dispatchSpec clients q payload
        (((tree.flatMap (fun pr => pr.devices)).filterMap
            (fun dr => dr.wsDeviceId)).filter JVal.truthy)
        (handleAPNMessageParts tree clients q ["messages", "payload"] (some payload)) := by
  intro tree clients q payload p d hpay
  refine ⟨?_, ?_, ?_⟩
  · intro hd hp
    unfold handleAPNMessageParts
    have h1 : resolveClientIds tree (some p) (some d) =
        (((tree.find? (fun pr => pr.pname == p)).bind
            (fun pr => pr.devices.find? (fun dr => dr.device == d))).bind
          (fun dr => dr.wsDeviceId)).toList := by
      unfold resolveClientIds
      simp [hd, hp]
    simp only [List.getElem?_cons_succ, List.getElem?_cons_zero, Option.getD_some, hpay,
      if_true, h1]
    exact dispatchSpec_of_dispatchLoop clients q payload _
  · unfold handleAPNMessageParts
    have h1 : resolveClientIds tree (some p) (some "messages") =
        ((tree.find? (fun pr => pr.pname == p)).map personDeviceIds).getD [] := by
      unfold resolveClientIds
      simp
    simp only [List.getElem?_cons_succ, List.getElem?_cons_zero, Option.getD_some, hpay,
      if_true, h1]
    exact dispatchSpec_of_dispatchLoop clients q payload _
  · unfold handleAPNMessageParts
    have h1 : resolveClientIds tree (some "payload") none =
        ((tree.flatMap (fun pr => pr.devices)).filterMap
            (fun dr => dr.wsDeviceId)).filter JVal.truthy := by
      unfold resolveClientIds
      simp
    simp only [List.getElem?_cons_succ, List.getElem?_cons_zero, List.getElem?_nil,
      Option.getD_some, hpay, if_true, h1]
    exact dispatchSpec_of_dispatchLoop clients q payload _

/-- C3 witness: the spec scenario store (alice with phone and watch
recorded as c1 and c2 and registered open, bob with tablet recorded as
c3 and not connected), dispatched at device level for alice.phone
(resolving to exactly c1), at person level for alice (c1 and c2), and
as broadcast (c1, c2 and c3). -/
theorem handleAPNMessage_resolves_and_delivers_witness :
    dispatchSpec
      [(some (.str "c1"), ⟨1, 1, []⟩), (some (.str "c2"), ⟨2, 1, []⟩)] [] (.str "PAY")
      [.str "c1"]
      (handleAPNMessageParts
        [⟨"alice", [⟨"phone", some (.str "c1")⟩, ⟨"watch", some (.str "c2")⟩]⟩,
         ⟨"bob", [⟨"tablet", some (.str "c3")⟩]⟩]
        [(some (.str "c1"), ⟨1, 1, []⟩), (some (.str "c2"), ⟨2, 1, []⟩)] []
        ["person", "alice", "phone", "messages", "payload"] (some (.str "PAY")))
    ∧ dispatchSpec
      [(some (.str "c1"), ⟨1, 1, []⟩), (some (.str "c2"), ⟨2, 1, []⟩)] [] (.str "PAY")
      [.str "c1", .str "c2"]
      (handleAPNMessageParts
        [⟨"alice", [⟨"phone", some (.str "c1")⟩, ⟨"watch", some (.str "c2")⟩]⟩,
         ⟨"bob", [⟨"tablet", some (.str "c3")⟩]⟩]
        [(some (.str "c1"), ⟨1, 1, []⟩), (some (.str "c2"), ⟨2, 1, []⟩)] []
        ["person", "alice", "messages", "payload"] (some (.str "PAY")))
    ∧ dispatchSpec
      [(some (.str "c1"), ⟨1, 1, []⟩), (some (.str "c2"), ⟨2, 1, []⟩)] [] (.str "PAY")
      [.str "c1", .str "c2", .str "c3"]
      (handleAPNMessageParts
        [⟨"alice", [⟨"phone", some (.str "c1")⟩, ⟨"watch", some (.str "c2")⟩]⟩,
         ⟨"bob", [⟨"tablet", some (.str "c3")⟩]⟩]
        [(some (.str "c1"), ⟨1, 1, []⟩), (some (.str "c2"), ⟨2, 1, []⟩)] []
        ["messages", "payload"] (some (.str "PAY"))) :=
  have h := handleAPNMessage_resolves_and_delivers
    [⟨"alice", [⟨"phone", some (.str "c1")⟩, ⟨"watch", some (.str "c2")⟩]⟩,
     ⟨"bob", [⟨"tablet", some (.str "c3")⟩]⟩]
    [(some (.str "c1"), ⟨1, 1, []⟩), (some (.str "c2"), ⟨2, 1, []⟩)] []
    (.str "PAY") "alice" "phone" (by decide)
  ⟨h.1 (by decide) (by decide), h.2.1, h.2.2⟩
